import Mathlib

/-!
Verification development for the `feature-probe` crate (`src/lib.rs`).

The crate probes whether a Rust compiler accepts a snippet by actually
invoking `rustc` as a subprocess.  The shallow embedding below mirrors the
source:

* `Probe` is the configuration struct (lib.rs lines 57-64) with its
  builder-style mutators (lines 109-162).  Rust's `&mut self` chaining is
  modelled by explicit state passing: each mutator returns the updated value.
* `Command` models the part of `std::process::Command` the crate uses:
  program, argument list, environment overrides and the three stdio modes.
* The interaction with the operating system (spawn / write to stdin / wait)
  is modelled by an oracle `env : Nat → AttemptBehavior` giving, for each
  attempt index, whether each of the three fallible steps succeeds and the
  child's exit code.  `runAttempt` is the body of the closure at lib.rs
  lines 271-276 (each `?` operator becomes an `Except` short-circuit).
* `retry_n_times` (lib.rs lines 284-294) is translated loop-for-loop; the
  closure argument is given the call index to stand for the `FnMut` state.
* `eprintln!` side effects in debug mode are modelled as the list of lines
  written to the parent's diagnostic stream (`Probe.debugEcho`).
-/

/-- The `Probe` configuration struct (lib.rs lines 57-64). -/
structure Probe where
  debug : Bool
  emit_type : String
  retries : Nat
  rustc : String
  rustc_args : List String
  deriving DecidableEq, Repr

/-- Model of `env_var_or` (lib.rs lines 302-304): the environment lookup is
an input, so the function receives the looked-up value (`none` = unset). -/
def env_var_or (value : Option String) (default : String) : String :=
  value.getD default

/-- Model of `Probe::new` (lib.rs lines 97-105); `envRUSTC` is the value of
the `RUSTC` environment variable at the time of the call. -/
def Probe.new (envRUSTC : Option String) : Probe :=
  { debug := false
    emit_type := "obj"
    retries := 2
    rustc := env_var_or envRUSTC "rustc"
    rustc_args := [] }

/-- Model of `Probe::arg` (lib.rs lines 109-115): push one argument. -/
def Probe.arg (p : Probe) (a : String) : Probe :=
  { p with rustc_args := p.rustc_args ++ [a] }

/-- Model of `Probe::args` (lib.rs lines 119-126): extend with many. -/
def Probe.args (p : Probe) (l : List String) : Probe :=
  { p with rustc_args := p.rustc_args ++ l }

/-- Model of `Probe::debug` (lib.rs lines 132-135); named `setDebug` because
Lean reserves `Probe.debug` for the field projection. -/
def Probe.setDebug (p : Probe) (b : Bool) : Probe :=
  { p with debug := b }

/-- Model of `Probe::emit` (lib.rs lines 141-144). -/
def Probe.setEmit (p : Probe) (e : String) : Probe :=
  { p with emit_type := e }

/-- Model of `Probe::retries` (lib.rs lines 150-153). -/
def Probe.setRetries (p : Probe) (n : Nat) : Probe :=
  { p with retries := n }

/-- Model of `Probe::rustc` (lib.rs lines 159-162). -/
def Probe.setRustc (p : Probe) (r : String) : Probe :=
  { p with rustc := r }

/-- The `NULL_DEVICE` constant (lib.rs lines 71-75); the `cfg` attribute
selects the value at compile time from the target OS, modelled by the
`windows` parameter. -/
def NULL_DEVICE (windows : Bool) : String :=
  if windows then "NUL" else "/dev/null"

/-- Model of `Probe::build_emit` (lib.rs lines 279-281). -/
def Probe.build_emit (p : Probe) (windows : Bool) : String :=
  p.emit_type ++ "=" ++ NULL_DEVICE windows

/-- The stdio configurations the crate uses (`Stdio::piped`, `Stdio::null`). -/
inductive Stdio
  | piped
  | null
  deriving DecidableEq, Repr

/-- Model of the part of `std::process::Command` the crate uses. -/
structure Command where
  program : String
  args : List String
  envs : List (String × String)
  stdin : Option Stdio
  stdout : Option Stdio
  stderr : Option Stdio
  deriving DecidableEq, Repr

/-- Model of `Command::new`. -/
def Command.new (program : String) : Command :=
  { program := program, args := [], envs := [], stdin := none,
    stdout := none, stderr := none }

/-- Model of `Command::arg`. -/
def Command.arg (c : Command) (a : String) : Command :=
  { c with args := c.args ++ [a] }

/-- Model of `Command::args` (named apart from the field projection). -/
def Command.argsAppend (c : Command) (l : List String) : Command :=
  { c with args := c.args ++ l }

/-- Model of `Command::env`. -/
def Command.env (c : Command) (k v : String) : Command :=
  { c with envs := c.envs ++ [(k, v)] }

/-- Model of `Command::stdin`. -/
def Command.setStdin (c : Command) (s : Stdio) : Command :=
  { c with stdin := some s }

/-- Model of `Command::stdout`. -/
def Command.setStdout (c : Command) (s : Stdio) : Command :=
  { c with stdout := some s }

/-- Model of `Command::stderr`. -/
def Command.setStderr (c : Command) (s : Stdio) : Command :=
  { c with stderr := some s }

/-- The command `Probe::probe_result` builds before the retry loop
(lib.rs lines 255-269): `Command::new(&self.rustc)`, then in debug mode the
`RUST_BACKTRACE` override and `--verbose`, then `--emit`, the emit spec,
`-`, the stored extra arguments, and the three stdio redirections. -/
def Probe.buildCommand (p : Probe) (windows : Bool) : Command :=
  let cmd := Command.new p.rustc
  let cmd := if p.debug then (cmd.env "RUST_BACKTRACE" "full").arg "--verbose" else cmd
  ((((((cmd.arg "--emit").arg (p.build_emit windows)).arg
      "-").argsAppend p.rustc_args).setStdin Stdio.piped).setStdout
      Stdio.null).setStderr Stdio.null

/-- Lines `probe_result` writes to the parent's diagnostic stream: the
`eprintln!` at lib.rs line 258 runs once, before the retry loop, and only in
debug mode. -/
def Probe.debugEcho (p : Probe) (code : String) : List String :=
  if p.debug then ["probing: " ++ code] else []

/-- Outcome of the three fallible OS interactions of one attempt
(lib.rs lines 273-275): `spawn`, `write_all` to the child's stdin, `wait`.
Errors carry a numeric identity standing for the `io::Error` value; `wait`
returns the child's exit code on success (`ExitStatus::success()` is
"code = 0"). -/
structure AttemptBehavior where
  spawn : Except Nat Unit
  write : Except Nat Unit
  wait : Except Nat Nat

/-- Model of the closure body at lib.rs lines 272-275: each `?` operator
short-circuits with the `io::Error`; on full success the attempt yields
`child.wait()?.success()`. -/
def runAttempt (b : AttemptBehavior) : Except Nat Bool :=
  match b.spawn with
  | .error e => .error e
  | .ok _ =>
    match b.write with
    | .error e => .error e
    | .ok _ =>
      match b.wait with
      | .error e => .error e
      | .ok c => .ok (c == 0)

/-- Whether an `Except` is the `ok` case (Rust's `Result::is_err` negated). -/
def exOk {ε α : Type} : Except ε α → Bool
  | .ok _ => true
  | .error _ => false

/-- An attempt "communicated": spawn, stdin write and wait all succeeded
(regardless of the child's exit status). -/
def AttemptBehavior.commOk (b : AttemptBehavior) : Bool :=
  exOk b.spawn && exOk b.write && exOk b.wait

/-- Exit-status success of an attempt: `wait` returned code 0. -/
def AttemptBehavior.exitSuccess (b : AttemptBehavior) : Bool :=
  match b.wait with
  | .ok c => c == 0
  | .error _ => false

/-- The loop body of `retry_n_times` (lib.rs lines 286-291): `n` counts the
remaining retries, `result` is the last call's result, `i` the index the
next call of `f` will get. -/
def retryGo {ε α : Type} (f : Nat → Except ε α) : Nat → Except ε α → Nat → Except ε α
  | 0, result, _ => result
  | n + 1, result, i =>
    match result with
    | .error _ => retryGo f n (f i) (i + 1)
    | .ok a => .ok a

/-- Model of `retry_n_times` (lib.rs lines 284-294): call `f` once, then
while the result is an error and retries remain, call again.  The `FnMut`
closure is modelled as a function of the call index. -/
def retry_n_times {ε α : Type} (n : Nat) (f : Nat → Except ε α) : Except ε α :=
  retryGo f n (f 0) 1

/-- Model of `Probe::probe_result` (lib.rs lines 254-277): run the attempt
closure under the retry policy.  The oracle `env` gives each attempt's OS
behavior; the command construction and debug echo are modelled separately
by `Probe.buildCommand` and `Probe.debugEcho` since they do not feed into
the returned value. -/
def Probe.probe_result (p : Probe) (code : String) (env : Nat → AttemptBehavior) :
    Except Nat Bool :=
  retry_n_times p.retries (fun i => runAttempt (env i))

/-- Model of `Probe::probe` (lib.rs lines 236-238):
`self.probe_result(code).expect("Probe::probe")`; the panic of `expect` on
an `Err` is modelled as `none`. -/
def Probe.probe (p : Probe) (code : String) (env : Nat → AttemptBehavior) : Option Bool :=
  match p.probe_result code env with
  | .ok b => some b
  | .error _ => none

/-- Model of `Probe::probe_type` (lib.rs lines 179-181): wrap the type name
by `format!("fn probe_fun(_: Box<{}>) {{}} fn main() {{}} ", type_name)`
and probe the resulting program. -/
def Probe.probe_type (p : Probe) (type_name : String) (env : Nat → AttemptBehavior) :
    Option Bool :=
  p.probe ("fn probe_fun(_: Box<" ++ type_name ++ ">) \x7b\x7d fn main() \x7b\x7d ") env

/-- Model of `Probe::probe_expression` (lib.rs lines 193-195): wrap by
`format!("fn main() {{ let _ = {}; }}", expression)`. -/
def Probe.probe_expression (p : Probe) (expression : String) (env : Nat → AttemptBehavior) :
    Option Bool :=
  p.probe ("fn main() \x7b let _ = " ++ expression ++ "; \x7d") env

/-- Model of `Probe::probe_typed_expression` (lib.rs lines 214-216): wrap by
`format!("fn main() {{ let _: {} = {}; }}", type_name, expression)`. -/
def Probe.probe_typed_expression (p : Probe) (expression : String) (type_name : String)
    (env : Nat → AttemptBehavior) : Option Bool :=
  p.probe ("fn main() \x7b let _: " ++ type_name ++ " = " ++ expression ++ "; \x7d") env

/-! ### Analysis of the retry loop

`stopIdxGo f n i` is the index of the call at which the loop stops when
`n` retries remain and the next call index is `i`: the first index at or
after `i` whose call succeeds, capped at `i + n`. -/

/-- Index of the call whose result the retry loop returns. -/
def stopIdxGo {ε α : Type} (f : Nat → Except ε α) : Nat → Nat → Nat
  | 0, i => i
  | n + 1, i => if exOk (f i) then i else stopIdxGo f n (i + 1)

theorem exOk_false_iff {ε α : Type} (r : Except ε α) :
    exOk r = false ↔ ∃ e, r = .error e := by
  cases r <;> simp [exOk]

theorem exOk_true_iff {ε α : Type} (r : Except ε α) :
    exOk r = true ↔ ∃ a, r = .ok a := by
  cases r <;> simp [exOk]

theorem retryGo_eq_stop {ε α : Type} (f : Nat → Except ε α) :
    ∀ n i, retryGo f n (f i) (i + 1) = f (stopIdxGo f n i) := by
  intro n
  induction n with
  | zero => intro i; rfl
  | succ m ih =>
    intro i
    by_cases h : exOk (f i) = true
    · obtain ⟨a, ha⟩ := (exOk_true_iff (f i)).mp h
      simp [retryGo, stopIdxGo, h, ha, exOk]
    · obtain ⟨e, he⟩ := (exOk_false_iff (f i)).mp (by simpa using h)
      rw [stopIdxGo, if_neg (by simp [h]), he]
      show retryGo f m (f (i + 1)) (i + 1 + 1) = f (stopIdxGo f m (i + 1))
      exact ih (i + 1)

theorem retry_eq_stop {ε α : Type} (n : Nat) (f : Nat → Except ε α) :
    retry_n_times n f = f (stopIdxGo f n 0) :=
  retryGo_eq_stop f n 0

theorem stopIdxGo_ge {ε α : Type} (f : Nat → Except ε α) :
    ∀ n i, i ≤ stopIdxGo f n i := by
  intro n
  induction n with
  | zero => intro i; exact Nat.le_refl i
  | succ m ih =>
    intro i
    rw [stopIdxGo]
    by_cases h : exOk (f i) = true
    · simp [h]
    · rw [if_neg (by simp [h])]
      exact Nat.le_trans (Nat.le_succ i) (ih (i + 1))

theorem stopIdxGo_le {ε α : Type} (f : Nat → Except ε α) :
    ∀ n i, stopIdxGo f n i ≤ i + n := by
  intro n
  induction n with
  | zero => intro i; exact Nat.le_refl i
  | succ m ih =>
    intro i
    rw [stopIdxGo]
    by_cases h : exOk (f i) = true
    · simp [h]
    · rw [if_neg (by simp [h])]
      calc stopIdxGo f m (i + 1) ≤ i + 1 + m := ih (i + 1)
        _ = i + (m + 1) := by omega

theorem stopIdxGo_err_before {ε α : Type} (f : Nat → Except ε α) :
    ∀ n i j, i ≤ j → j < stopIdxGo f n i → exOk (f j) = false := by
  intro n
  induction n with
  | zero =>
    intro i j hij hj
    rw [stopIdxGo] at hj
    omega
  | succ m ih =>
    intro i j hij hj
    rw [stopIdxGo] at hj
    by_cases h : exOk (f i) = true
    · rw [if_pos h] at hj; omega
    · rw [if_neg (by simp [h])] at hj
      rcases Nat.eq_or_lt_of_le hij with heq | hlt
      · simpa [← heq] using h
      · exact ih (i + 1) j hlt hj

theorem stopIdxGo_err_at {ε α : Type} (f : Nat → Except ε α) :
    ∀ n i, exOk (f (stopIdxGo f n i)) = false → stopIdxGo f n i = i + n := by
  intro n
  induction n with
  | zero => intro i _; rfl
  | succ m ih =>
    intro i herr
    rw [stopIdxGo] at herr ⊢
    by_cases h : exOk (f i) = true
    · rw [if_pos h] at herr
      rw [h] at herr
      exact absurd herr (by simp)
    · rw [if_neg (by simp [h])] at herr ⊢
      rw [ih (i + 1) herr]
      omega

theorem stopIdxGo_min {ε α : Type} (f : Nat → Except ε α) :
    ∀ n i k, i ≤ k → k ≤ i + n → (∀ j, i ≤ j → j < k → exOk (f j) = false) →
      exOk (f k) = true → stopIdxGo f n i = k := by
  intro n
  induction n with
  | zero =>
    intro i k hik hki _ _
    rw [stopIdxGo]
    omega
  | succ m ih =>
    intro i k hik hki herr hok
    rw [stopIdxGo]
    by_cases h : exOk (f i) = true
    · rcases Nat.eq_or_lt_of_le hik with heq | hlt
      · subst heq
        rw [if_pos h]
      · have := herr i (Nat.le_refl i) hlt
        rw [this] at h
        exact absurd h (by simp)
    · rw [if_neg (by simp [h])]
      have hik' : i + 1 ≤ k := by
        rcases Nat.eq_or_lt_of_le hik with heq | hlt
        · subst heq
          rw [hok] at h
          exact absurd rfl h
        · omega
      exact ih (i + 1) k hik' (by omega) (fun j hj hjk => herr j (by omega) hjk) hok

/-! ### Attempt-level lemmas connecting `runAttempt` with `commOk`. -/

theorem exOk_runAttempt (b : AttemptBehavior) : exOk (runAttempt b) = b.commOk := by
  rcases b with ⟨s, w, x⟩
  cases s <;> cases w <;> cases x <;>
    simp [runAttempt, AttemptBehavior.commOk, exOk]

theorem runAttempt_of_commOk (b : AttemptBehavior) (h : b.commOk = true) :
    runAttempt b = .ok b.exitSuccess := by
  rcases b with ⟨s, w, x⟩
  cases s <;> cases w <;> cases x <;>
    simp_all [runAttempt, AttemptBehavior.commOk, AttemptBehavior.exitSuccess, exOk]

theorem runAttempt_err_of_fault (b : AttemptBehavior) (h : b.commOk = false) :
    ∃ e, runAttempt b = .error e := by
  have : exOk (runAttempt b) = false := by rw [exOk_runAttempt, h]
  exact (exOk_false_iff _).mp this

/-- Number of calls the retry loop makes inside `probe_result`. -/
def attemptsMade (p : Probe) (env : Nat → AttemptBehavior) : Nat :=
  stopIdxGo (fun i => runAttempt (env i)) p.retries 0 + 1

/-! ### Characterization of `probe_result` in terms of the attempt oracle. -/

theorem probe_result_ok_iff (p : Probe) (code : String) (env : Nat → AttemptBehavior)
    (b : Bool) :
    p.probe_result code env = Except.ok b ↔
      ∃ i, i ≤ p.retries ∧ (∀ j, j < i → (env j).commOk = false) ∧
        (env i).commOk = true ∧ (env i).exitSuccess = b := by
  have hres : p.probe_result code env =
      runAttempt (env (stopIdxGo (fun i => runAttempt (env i)) p.retries 0)) :=
    retry_eq_stop p.retries (fun i => runAttempt (env i))
  constructor
  · intro h
    rw [hres] at h
    have hok : exOk (runAttempt (env (stopIdxGo (fun i => runAttempt (env i)) p.retries 0)))
        = true := by rw [h]; rfl
    rw [exOk_runAttempt] at hok
    refine ⟨stopIdxGo (fun i => runAttempt (env i)) p.retries 0, ?_, ?_, hok, ?_⟩
    · have := stopIdxGo_le (fun i => runAttempt (env i)) p.retries 0
      omega
    · intro j hj
      have := stopIdxGo_err_before (fun i => runAttempt (env i)) p.retries 0 j
        (Nat.zero_le j) hj
      rw [exOk_runAttempt] at this
      exact this
    · have := runAttempt_of_commOk _ hok
      rw [this] at h
      exact (Except.ok.injEq _ _).mp h.symm |>.symm
  · rintro ⟨i, hi, herr, hcomm, hexit⟩
    have hstop : stopIdxGo (fun j => runAttempt (env j)) p.retries 0 = i := by
      refine stopIdxGo_min (fun j => runAttempt (env j)) p.retries 0 i (Nat.zero_le i)
        (by omega) ?_ ?_
      · intro j _ hj
        rw [exOk_runAttempt]
        exact herr j hj
      · rw [exOk_runAttempt]
        exact hcomm
    rw [hres, hstop, runAttempt_of_commOk _ hcomm, hexit]

theorem probe_result_err_iff (p : Probe) (code : String) (env : Nat → AttemptBehavior) :
    (∃ e, p.probe_result code env = Except.error e) ↔
      ∀ i, i ≤ p.retries → (env i).commOk = false := by
  have hres : p.probe_result code env =
      runAttempt (env (stopIdxGo (fun i => runAttempt (env i)) p.retries 0)) :=
    retry_eq_stop p.retries (fun i => runAttempt (env i))
  constructor
  · rintro ⟨e, he⟩
    rw [hres] at he
    have herrS : exOk (runAttempt (env (stopIdxGo (fun i => runAttempt (env i)) p.retries 0)))
        = false := by rw [he]; rfl
    have hstop := stopIdxGo_err_at (fun i => runAttempt (env i)) p.retries 0 herrS
    intro i hi
    rcases Nat.lt_or_ge i (stopIdxGo (fun j => runAttempt (env j)) p.retries 0) with hlt | hge
    · have := stopIdxGo_err_before (fun j => runAttempt (env j)) p.retries 0 i
        (Nat.zero_le i) hlt
      rw [exOk_runAttempt] at this
      exact this
    · have : i = stopIdxGo (fun j => runAttempt (env j)) p.retries 0 := by omega
      rw [this]
      rw [← exOk_runAttempt]
      exact herrS
  · intro hall
    have hle := stopIdxGo_le (fun i => runAttempt (env i)) p.retries 0
    have : (env (stopIdxGo (fun i => runAttempt (env i)) p.retries 0)).commOk = false :=
      hall _ (by omega)
    obtain ⟨e, he⟩ := runAttempt_err_of_fault _ this
    exact ⟨e, by rw [hres]; exact he⟩

/-- Claim C1: `probe_result` returns `Ok(true)` iff the compiler subprocess was
spawned and communicated with successfully and exited with a success status;
`Ok(false)` iff it was spawned and communicated with successfully and exited
with a non-success status; and `Err` exactly when every one of the
`1 + retries` attempts failed to spawn or communicate. -/
theorem spec_C1 (p : Probe) (code : String) (env : Nat → AttemptBehavior) :
    (p.probe_result code env = Except.ok true ↔
      ∃ i, i ≤ p.retries ∧ (∀ j, j < i → (env j).commOk = false) ∧
        (env i).commOk = true ∧ (env i).exitSuccess = true)
  ∧ (p.probe_result code env = Except.ok false ↔
      ∃ i, i ≤ p.retries ∧ (∀ j, j < i → (env j).commOk = false) ∧
        (env i).commOk = true ∧ (env i).exitSuccess = false)
  ∧ ((∃ e, p.probe_result code env = Except.error e) ↔
      ∀ i, i ≤ p.retries → (env i).commOk = false) :=
  ⟨probe_result_ok_iff p code env true, probe_result_ok_iff p code env false,
    probe_result_err_iff p code env⟩

/-- Claim C2: the retry loop makes at most `1 + retries` calls of the attempt
closure; only a spawn/communication fault is retried; the first attempt that
spawns and communicates short-circuits the remaining retries and its boolean
is returned; if every attempt faults, the last attempt's fault is the result;
and in particular faults on the first `retries` attempts followed by a
communicating final attempt yield that attempt's boolean, not an error. -/
theorem spec_C2 (p : Probe) (code : String) (env : Nat → AttemptBehavior) :
    attemptsMade p env ≤ 1 + p.retries
  ∧ (∀ j, j + 1 < attemptsMade p env → (env j).commOk = false)
  ∧ (∀ i, i ≤ p.retries → (∀ j, j < i → (env j).commOk = false) →
      (env i).commOk = true →
      attemptsMade p env = i + 1 ∧ p.probe_result code env = Except.ok ((env i).exitSuccess))
  ∧ ((∀ i, i ≤ p.retries → (env i).commOk = false) →
      p.probe_result code env = runAttempt (env p.retries))
  ∧ ((∀ j, j < p.retries → (env j).commOk = false) → (env p.retries).commOk = true →
      p.probe_result code env = Except.ok ((env p.retries).exitSuccess)) := by
  have hres : p.probe_result code env =
      runAttempt (env (stopIdxGo (fun i => runAttempt (env i)) p.retries 0)) :=
    retry_eq_stop p.retries (fun i => runAttempt (env i))
  have hstopmin : ∀ i, i ≤ p.retries → (∀ j, j < i → (env j).commOk = false) →
      (env i).commOk = true → stopIdxGo (fun j => runAttempt (env j)) p.retries 0 = i := by
    intro i hi herr hcomm
    refine stopIdxGo_min (fun j => runAttempt (env j)) p.retries 0 i (Nat.zero_le i)
      (by omega) ?_ ?_
    · intro j _ hj
      rw [exOk_runAttempt]
      exact herr j hj
    · rw [exOk_runAttempt]
      exact hcomm
  refine ⟨?_, ?_, ?_, ?_, ?_⟩
  · have := stopIdxGo_le (fun i => runAttempt (env i)) p.retries 0
    unfold attemptsMade
    omega
  · intro j hj
    unfold attemptsMade at hj
    have := stopIdxGo_err_before (fun i => runAttempt (env i)) p.retries 0 j
      (Nat.zero_le j) (by omega)
    rw [exOk_runAttempt] at this
    exact this
  · intro i hi herr hcomm
    have hstop := hstopmin i hi herr hcomm
    constructor
    · unfold attemptsMade
      omega
    · rw [hres, hstop]
      exact runAttempt_of_commOk _ hcomm
  · intro hall
    have : (∃ e, p.probe_result code env = Except.error e) :=
      (probe_result_err_iff p code env).mpr hall
    obtain ⟨e, he⟩ := this
    have herrS : exOk (runAttempt (env (stopIdxGo (fun i => runAttempt (env i)) p.retries 0)))
        = false := by
      rw [hres] at he
      rw [he]
      rfl
    have hstop := stopIdxGo_err_at (fun i => runAttempt (env i)) p.retries 0 herrS
    rw [hres, hstop, Nat.zero_add]
  · intro herr hcomm
    have hstop := hstopmin p.retries (Nat.le_refl _) herr hcomm
    rw [hres, hstop]
    exact runAttempt_of_commOk _ hcomm

/-- Claim C5: `probe` returns exactly the boolean of `probe_result` when the
latter is `Ok`, and panics (modelled as `none`) exactly when `probe_result`
is `Err`; both share the same core (`probe` is defined on top of
`probe_result`), so a spawn/communication fault on every attempt makes
`probe` panic rather than return `false`. -/
theorem spec_C5 (p : Probe) (code : String) (env : Nat → AttemptBehavior) :
    (∀ b, p.probe code env = some b ↔ p.probe_result code env = Except.ok b)
  ∧ (p.probe code env = none ↔ ∃ e, p.probe_result code env = Except.error e)
  ∧ ((∀ i, i ≤ p.retries → (env i).commOk = false) → p.probe code env = none) := by
  refine ⟨?_, ?_, ?_⟩
  · intro b
    unfold Probe.probe
    cases h : p.probe_result code env <;> simp
  · unfold Probe.probe
    cases h : p.probe_result code env <;> simp
  · intro hall
    obtain ⟨e, he⟩ := (probe_result_err_iff p code env).mpr hall
    unfold Probe.probe
    rw [he]

/-- Claim C6: `probe_type(T)` probes exactly the synthesized program
`fn probe_fun(_: Box<T>) {} fn main() {} ` (braces written `\x7b\x7d`):
it equals `probe` applied to that wrapped string, for every type-name
string, with no inspection or validation of the fragment and no failure of
its own (the synthesis is total pure string concatenation). -/
theorem spec_C6 (p : Probe) (type_name : String) (env : Nat → AttemptBehavior) :
    p.probe_type type_name env =
      p.probe ("fn probe_fun(_: Box<" ++ type_name ++ ">) \x7b\x7d fn main() \x7b\x7d ") env :=
  rfl

/-- Claim C7: `probe_expression(E)` probes exactly `fn main() { let _ = E; }`
and `probe_typed_expression(E, T)` probes exactly
`fn main() { let _: T = E; }` (braces written `\x7b`/`\x7d`): each equals
`probe` applied to the corresponding wrapped string. -/
theorem spec_C7 (p : Probe) (expression type_name : String)
    (env : Nat → AttemptBehavior) :
    p.probe_expression expression env =
      p.probe ("fn main() \x7b let _ = " ++ expression ++ "; \x7d") env
  ∧ p.probe_typed_expression expression type_name env =
      p.probe ("fn main() \x7b let _: " ++ type_name ++ " = " ++ expression ++ "; \x7d") env :=
  ⟨rfl, rfl⟩

/-- Normal form of the command `probe_result` builds (shared helper). -/
theorem buildCommand_eq (p : Probe) (w : Bool) :
    p.buildCommand w =
      { program := p.rustc
        args := (if p.debug then ["--verbose"] else []) ++
          ["--emit", p.emit_type ++ "=" ++ NULL_DEVICE w, "-"] ++ p.rustc_args
        envs := if p.debug then [("RUST_BACKTRACE", "full")] else []
        stdin := some Stdio.piped
        stdout := some Stdio.null
        stderr := some Stdio.null } := by
  cases h : p.debug <;>
    simp [Probe.buildCommand, Command.new, Command.arg, Command.argsAppend, Command.env,
      Command.setStdin, Command.setStdout, Command.setStderr, Probe.build_emit, h]

/-- Claim C3, counterexample: for the probe with debug set and one extra
argument `x`, the claimed argument list (single combined emission token
first, verbosity flag last) is not the one the code builds — the code
passes `--emit` and `obj=/dev/null` as two separate tokens and puts
`--verbose` first. -/
theorem spec_C3_counterexample :
    ¬ ((((Probe.new none).setDebug true).arg "x").buildCommand false).args =
        ["--emit=obj=/dev/null", "-", "x", "--verbose"] := by
  decide

/-- Claim C3 as amended: the argument list consists of, in this order: only
when debug is set, a verbosity flag first; then the emit flag `--emit` and,
as a separate following token, `<emit_kind>=<null-device-path>` where the
null-device path is the Windows device name on Windows and the Unix device
file otherwise, selected at compile time; then `-` directing the compiler to
read the program from standard input; and finally the configured extra
arguments in their stored order. -/
theorem spec_C3 (p : Probe) (w : Bool) :
    (p.buildCommand w).args =
      (if p.debug then ["--verbose"] else []) ++
        ["--emit", p.emit_type ++ "=" ++ NULL_DEVICE w, "-"] ++ p.rustc_args
  ∧ NULL_DEVICE true = "NUL" ∧ NULL_DEVICE false = "/dev/null" := by
  rw [buildCommand_eq]
  exact ⟨rfl, rfl, rfl⟩

/-- Claim C8: the child's standard output and standard error are redirected
to the null sink regardless of the debug flag (and stdin is piped); setting
debug changes only the argument list (prepending the verbosity flag), the
environment (adding the backtrace request) and the parent-side echo of the
source text, and nothing about the stdio redirections. -/
theorem spec_C8 (p : Probe) (w : Bool) (code : String) :
    (p.buildCommand w).stdout = some Stdio.null
  ∧ (p.buildCommand w).stderr = some Stdio.null
  ∧ (p.buildCommand w).stdin = some Stdio.piped
  ∧ ((p.setDebug true).buildCommand w).stdout = ((p.setDebug false).buildCommand w).stdout
  ∧ ((p.setDebug true).buildCommand w).stderr = ((p.setDebug false).buildCommand w).stderr
  ∧ ((p.setDebug true).buildCommand w).stdin = ((p.setDebug false).buildCommand w).stdin
  ∧ ((p.setDebug true).buildCommand w).program = ((p.setDebug false).buildCommand w).program
  ∧ ((p.setDebug true).buildCommand w).args =
      "--verbose" :: ((p.setDebug false).buildCommand w).args
  ∧ ((p.setDebug true).buildCommand w).envs =
      ("RUST_BACKTRACE", "full") :: ((p.setDebug false).buildCommand w).envs
  ∧ (p.setDebug true).debugEcho code = ["probing: " ++ code]
  ∧ (p.setDebug false).debugEcho code = [] := by
  simp [buildCommand_eq, Probe.setDebug, Probe.debugEcho]

/-- Claim C9: each configuration mutator updates only its own field, leaves
every other field unchanged, and (modelled by state passing) hands back the
updated configuration for chaining; `arg` appends one argument and `args`
appends many at the end of the extra-argument list, preserving the existing
order and the order of the appended items. -/
theorem spec_C9 (p : Probe) (a : String) (l : List String) (b : Bool) (e : String)
    (n : Nat) (r : String) :
    ((p.arg a).rustc_args = p.rustc_args ++ [a] ∧ (p.arg a).debug = p.debug ∧
      (p.arg a).emit_type = p.emit_type ∧ (p.arg a).retries = p.retries ∧
      (p.arg a).rustc = p.rustc)
  ∧ ((p.args l).rustc_args = p.rustc_args ++ l ∧ (p.args l).debug = p.debug ∧
      (p.args l).emit_type = p.emit_type ∧ (p.args l).retries = p.retries ∧
      (p.args l).rustc = p.rustc)
  ∧ ((p.setDebug b).debug = b ∧ (p.setDebug b).rustc_args = p.rustc_args ∧
      (p.setDebug b).emit_type = p.emit_type ∧ (p.setDebug b).retries = p.retries ∧
      (p.setDebug b).rustc = p.rustc)
  ∧ ((p.setEmit e).emit_type = e ∧ (p.setEmit e).debug = p.debug ∧
      (p.setEmit e).rustc_args = p.rustc_args ∧ (p.setEmit e).retries = p.retries ∧
      (p.setEmit e).rustc = p.rustc)
  ∧ ((p.setRetries n).retries = n ∧ (p.setRetries n).debug = p.debug ∧
      (p.setRetries n).emit_type = p.emit_type ∧ (p.setRetries n).rustc_args = p.rustc_args ∧
      (p.setRetries n).rustc = p.rustc)
  ∧ ((p.setRustc r).rustc = r ∧ (p.setRustc r).debug = p.debug ∧
      (p.setRustc r).emit_type = p.emit_type ∧ (p.setRustc r).retries = p.retries ∧
      (p.setRustc r).rustc_args = p.rustc_args) :=
  ⟨⟨rfl, rfl, rfl, rfl, rfl⟩, ⟨rfl, rfl, rfl, rfl, rfl⟩, ⟨rfl, rfl, rfl, rfl, rfl⟩,
    ⟨rfl, rfl, rfl, rfl, rfl⟩, ⟨rfl, rfl, rfl, rfl, rfl⟩, ⟨rfl, rfl, rfl, rfl, rfl⟩⟩

/-! ### Event traces of a `probe_result` call (claims C4 and C10).

One call performs, in source order: string formatting (the snippet
synthesis in the wrappers and the command construction at lib.rs
lines 255-269, all before the retry loop), the debug echo (line 258), and
then for each attempt of the closure at lines 271-276: acquiring
`RUSTC_MUTEX`, spawning the child, writing the program to its stdin,
waiting for exit, and releasing the guard when it is dropped.  An attempt
in which a step fails exits early through the `?` operator; `attemptTrace`
below gives the per-attempt traces including those fault paths, while
`attemptEvents`/`attemptBlocks` give the fault-free trace used by claim
C10 (a faulting attempt performs no echo and no formatting either, see
`attemptTraces_countP_echo` and `attemptTraces_countP_fmt`). -/

/-- Observable events of a `probe_result` call; `abandon` is the drop of a
spawned child that is neither killed nor reaped (the early return through
`?` after a failed stdin write or wait drops the `Child` value, which does
not terminate the operating-system process). -/
inductive REvent
  | fmt
  | echo (msg : String)
  | lock
  | spawn
  | write
  | wait
  | abandon
  | unlock
  deriving DecidableEq, Repr

/-- Events of one attempt of the closure at lib.rs lines 271-276 in which
spawn, write and wait all succeed: the guard is acquired immediately before
the spawn and released immediately after the wait, with the stdin write in
between.  This fault-free block underlies claim C10's per-call trace; the
fault paths are modelled by `attemptTrace` below. -/
def attemptEvents : List REvent :=
  [REvent.lock, REvent.spawn, REvent.write, REvent.wait, REvent.unlock]

/-- Events of `k` consecutive attempts. -/
def attemptBlocks : Nat → List REvent
  | 0 => []
  | k + 1 => attemptEvents ++ attemptBlocks k

/-- Events of a whole `probe_result` call that makes `k` attempts. -/
def probeCallEvents (p : Probe) (code : String) (k : Nat) : List REvent :=
  REvent.fmt :: ((p.debugEcho code).map REvent.echo ++ attemptBlocks k)

/-- Whether an event is a debug echo. -/
def isEcho : REvent → Bool
  | .echo _ => true
  | _ => false

/-- Whether an event is a string-formatting/command-building step. -/
def isFmt : REvent → Bool
  | .fmt => true
  | _ => false

theorem attemptBlocks_countP_echo (k : Nat) : (attemptBlocks k).countP isEcho = 0 := by
  induction k with
  | zero => rfl
  | succ m ih =>
    rw [attemptBlocks, List.countP_append, ih]
    decide

theorem attemptBlocks_countP_fmt (k : Nat) : (attemptBlocks k).countP isFmt = 0 := by
  induction k with
  | zero => rfl
  | succ m ih =>
    rw [attemptBlocks, List.countP_append, ih]
    decide

/-- Claim C10: with debug enabled, a `probe_result` call echoes the
attempted source exactly once, as the second event of the call, before every
attempt; the attempt blocks themselves contain no echo and no
formatting/command-building event, for any number `k` of attempts (so
retried attempts reuse the already-built command and do not echo again);
without debug there is no echo at all. -/
theorem spec_C10 (p : Probe) (code : String) (k : Nat) :
    probeCallEvents (p.setDebug true) code k =
      REvent.fmt :: REvent.echo ("probing: " ++ code) :: attemptBlocks k
  ∧ (probeCallEvents (p.setDebug true) code k).countP isEcho = 1
  ∧ (attemptBlocks k).countP isEcho = 0
  ∧ (attemptBlocks k).countP isFmt = 0
  ∧ (probeCallEvents (p.setDebug false) code k).countP isEcho = 0 := by
  have h1 : probeCallEvents (p.setDebug true) code k =
      REvent.fmt :: REvent.echo ("probing: " ++ code) :: attemptBlocks k := by
    simp [probeCallEvents, Probe.debugEcho, Probe.setDebug]
  refine ⟨h1, ?_, attemptBlocks_countP_echo k, attemptBlocks_countP_fmt k, ?_⟩
  · rw [h1]
    simp [List.countP_cons, isEcho, attemptBlocks_countP_echo k]
  · simp [probeCallEvents, Probe.debugEcho, Probe.setDebug, List.countP_cons, isEcho,
      attemptBlocks_countP_echo k]

/-! ### The process-wide serialization gate (claim C4).

`RUSTC_MUTEX` (lib.rs lines 67-69) is a single process-lifetime mutex.  We
model any number of threads, each executing the events of one
`probe_result` call, under an interleaving semantics in which a `lock`
event can only fire while no thread holds the gate (mutex semantics).

The closure at lib.rs lines 272-275 exits early through each `?` operator:
when `spawn` fails no child exists; when `write_all` or `wait` fails after
a successful spawn, the early return first drops the `Child` value without
killing or reaping the operating-system process, then drops `_guard`,
releasing the gate.  Such an abandoned child may keep running after the
critical section ends.  The per-attempt event trace is therefore derived
from the attempt's `AttemptBehavior` and includes these fault paths; the
`abandon` event marks the drop of a spawned, un-reaped child. -/

/-- Events of one attempt of the closure at lib.rs lines 272-275, by
outcome: on a `spawn` fault the guard is acquired and released with no
child; on a `write_all` fault the spawned child is abandoned un-reaped
before the guard drops; on a `wait` fault likewise, after the stdin write;
on full success the child is waited for (reaped) before the guard drops. -/
def attemptTrace (b : AttemptBehavior) : List REvent :=
  match b.spawn with
  | .error _ => [REvent.lock, REvent.unlock]
  | .ok _ =>
    match b.write with
    | .error _ => [REvent.lock, REvent.spawn, REvent.abandon, REvent.unlock]
    | .ok _ =>
      match b.wait with
      | .error _ =>
        [REvent.lock, REvent.spawn, REvent.write, REvent.abandon, REvent.unlock]
      | .ok _ =>
        [REvent.lock, REvent.spawn, REvent.write, REvent.wait, REvent.unlock]

/-- Events of a list of consecutive attempts. -/
def attemptTraces : List AttemptBehavior → List REvent
  | [] => []
  | b :: bs => attemptTrace b ++ attemptTraces bs

/-- Events of a whole `probe_result` call whose attempts behave as `bs`. -/
def probeCallTrace (p : Probe) (code : String) (bs : List AttemptBehavior) :
    List REvent :=
  REvent.fmt :: ((p.debugEcho code).map REvent.echo ++ attemptTraces bs)

/-- The four possible traces of one attempt. -/
theorem attemptTrace_shape (b : AttemptBehavior) :
    attemptTrace b = [REvent.lock, REvent.unlock]
  ∨ attemptTrace b = [REvent.lock, REvent.spawn, REvent.abandon, REvent.unlock]
  ∨ attemptTrace b =
      [REvent.lock, REvent.spawn, REvent.write, REvent.abandon, REvent.unlock]
  ∨ attemptTrace b =
      [REvent.lock, REvent.spawn, REvent.write, REvent.wait, REvent.unlock] := by
  rcases b with ⟨s, w, x⟩
  cases s <;> cases w <;> cases x <;> simp [attemptTrace]

theorem attemptTrace_countP_echo (b : AttemptBehavior) :
    (attemptTrace b).countP isEcho = 0 := by
  rcases attemptTrace_shape b with h | h | h | h <;> rw [h] <;> decide

theorem attemptTrace_countP_fmt (b : AttemptBehavior) :
    (attemptTrace b).countP isFmt = 0 := by
  rcases attemptTrace_shape b with h | h | h | h <;> rw [h] <;> decide

/-- Even with fault paths included, the attempts of a call perform no echo:
the `eprintln!` runs only once, before the retry loop. -/
theorem attemptTraces_countP_echo (bs : List AttemptBehavior) :
    (attemptTraces bs).countP isEcho = 0 := by
  induction bs with
  | nil => rfl
  | cons b bs ih =>
    rw [attemptTraces, List.countP_append, ih, attemptTrace_countP_echo]

/-- Even with fault paths included, the attempts of a call perform no
string formatting or command building: the command is built once, before
the retry loop. -/
theorem attemptTraces_countP_fmt (bs : List AttemptBehavior) :
    (attemptTraces bs).countP isFmt = 0 := by
  induction bs with
  | nil => rfl
  | cons b bs ih =>
    rw [attemptTraces, List.countP_append, ih, attemptTrace_countP_fmt]

/-- Global state: per-thread remaining events, the gate's holder, whether
each thread's current attempt has a spawned, un-reaped, un-abandoned child
(the attempt is in progress), and how many abandoned children are still
running. -/
structure MState where
  rem : Nat → List REvent
  owner : Option Nat
  cur : Nat → Bool
  orphans : Nat

/-- Pointwise function update (threads are indexed by `Nat`). -/
def updf {α : Type} (f : Nat → α) (t : Nat) (v : α) : Nat → α :=
  fun u => if u = t then v else f u

/-- Interleaving semantics: one thread executes its next event.  `lock`
requires the gate to be free and takes it; `unlock` releases it; `spawn`
creates the thread's current child; `wait` reaps it; `abandon` drops it
un-reaped, so it joins the still-running orphans; `orphanExit` lets an
abandoned child terminate on its own at any later time (the code neither
controls nor observes when that happens); formatting and echo events have
no global effect. -/
inductive MStep : MState → MState → Prop
  | fmt (c : MState) (t : Nat) (rest : List REvent) :
      c.rem t = REvent.fmt :: rest →
      MStep c { c with rem := updf c.rem t rest }
  | echo (c : MState) (t : Nat) (msg : String) (rest : List REvent) :
      c.rem t = REvent.echo msg :: rest →
      MStep c { c with rem := updf c.rem t rest }
  | lock (c : MState) (t : Nat) (rest : List REvent) :
      c.rem t = REvent.lock :: rest → c.owner = none →
      MStep c { c with rem := updf c.rem t rest, owner := some t }
  | spawn (c : MState) (t : Nat) (rest : List REvent) :
      c.rem t = REvent.spawn :: rest →
      MStep c { c with rem := updf c.rem t rest, cur := updf c.cur t true }
  | write (c : MState) (t : Nat) (rest : List REvent) :
      c.rem t = REvent.write :: rest →
      MStep c { c with rem := updf c.rem t rest }
  | wait (c : MState) (t : Nat) (rest : List REvent) :
      c.rem t = REvent.wait :: rest →
      MStep c { c with rem := updf c.rem t rest, cur := updf c.cur t false }
  | abandon (c : MState) (t : Nat) (rest : List REvent) :
      c.rem t = REvent.abandon :: rest →
      MStep c { c with rem := updf c.rem t rest, cur := updf c.cur t false, orphans := c.orphans + 1 }
  | unlock (c : MState) (t : Nat) (rest : List REvent) :
      c.rem t = REvent.unlock :: rest →
      MStep c { c with rem := updf c.rem t rest, owner := none }
  | orphanExit (c : MState) (n : Nat) :
      c.orphans = n + 1 →
      MStep c { c with orphans := n }

/-- Reflexive-transitive closure of `MStep`. -/
inductive MReach (s : MState) : MState → Prop
  | refl : MReach s s
  | step {a b : MState} : MReach s a → MStep a b → MReach s b

/-- Initial state: every thread `t` is about to run one `probe_result` call
(probe `ps t`, program `codes t`, attempts behaving as `bss t`), the gate
is free and no child exists. -/
def mInit (ps : Nat → Probe) (codes : Nat → String)
    (bss : Nat → List AttemptBehavior) : MState :=
  { rem := fun t => probeCallTrace (ps t) (codes t) (bss t)
    owner := none
    cur := fun _ => false
    orphans := 0 }

/-- Lists of non-synchronizing events (formatting and echo only). -/
def NoSync (l : List REvent) : Prop :=
  ∀ e ∈ l, e = REvent.fmt ∨ ∃ msg, e = REvent.echo msg

/-- Shape of one thread's local state under gate-holder `o`: either
outside the critical section (only formatting/echo events before whole
attempt traces, no in-progress child, not the holder), or inside one
attempt's critical section at one of the eight positions the four attempt
traces admit, holding the gate, with the in-progress child live exactly
between its `spawn` and its `wait` or `abandon`. -/
def CShape (o : Option Nat) (t : Nat) (r : List REvent) (cu : Bool) : Prop :=
  (∃ pfx bs, NoSync pfx ∧ o ≠ some t ∧ cu = false ∧ r = pfx ++ attemptTraces bs)
  ∨ (∃ bs, o = some t ∧ cu = false ∧
      r = REvent.spawn :: REvent.abandon :: REvent.unlock :: attemptTraces bs)
  ∨ (∃ bs, o = some t ∧ cu = false ∧
      r = REvent.spawn :: REvent.write :: REvent.abandon :: REvent.unlock ::
        attemptTraces bs)
  ∨ (∃ bs, o = some t ∧ cu = false ∧
      r = REvent.spawn :: REvent.write :: REvent.wait :: REvent.unlock ::
        attemptTraces bs)
  ∨ (∃ bs, o = some t ∧ cu = true ∧
      r = REvent.abandon :: REvent.unlock :: attemptTraces bs)
  ∨ (∃ bs, o = some t ∧ cu = true ∧
      r = REvent.write :: REvent.abandon :: REvent.unlock :: attemptTraces bs)
  ∨ (∃ bs, o = some t ∧ cu = true ∧
      r = REvent.write :: REvent.wait :: REvent.unlock :: attemptTraces bs)
  ∨ (∃ bs, o = some t ∧ cu = true ∧
      r = REvent.wait :: REvent.unlock :: attemptTraces bs)
  ∨ (∃ bs, o = some t ∧ cu = false ∧ r = REvent.unlock :: attemptTraces bs)

/-- The global invariant: every thread's local state is well-shaped (the
orphan count is unconstrained, because the code does not track abandoned
children at all). -/
def GateInv (c : MState) : Prop :=
  ∀ t, CShape c.owner t (c.rem t) (c.cur t)

theorem attemptTraces_cons {bs : List AttemptBehavior} {e : REvent}
    {rest : List REvent} (h : attemptTraces bs = e :: rest) :
    e = REvent.lock ∧ ∃ bs' : List AttemptBehavior,
      rest = REvent.unlock :: attemptTraces bs'
    ∨ rest = REvent.spawn :: REvent.abandon :: REvent.unlock :: attemptTraces bs'
    ∨ rest = REvent.spawn :: REvent.write :: REvent.abandon :: REvent.unlock ::
        attemptTraces bs'
    ∨ rest = REvent.spawn :: REvent.write :: REvent.wait :: REvent.unlock ::
        attemptTraces bs' := by
  cases bs with
  | nil => exact absurd h (by simp [attemptTraces])
  | cons b bs' =>
    rw [attemptTraces] at h
    rcases attemptTrace_shape b with h4 | h4 | h4 | h4 <;>
      rw [h4] at h <;>
      simp only [List.cons_append, List.nil_append, List.cons.injEq] at h
    · exact ⟨h.1.symm, bs', Or.inl h.2.symm⟩
    · exact ⟨h.1.symm, bs', Or.inr (Or.inl h.2.symm)⟩
    · exact ⟨h.1.symm, bs', Or.inr (Or.inr (Or.inl h.2.symm))⟩
    · exact ⟨h.1.symm, bs', Or.inr (Or.inr (Or.inr h.2.symm))⟩

theorem noSync_cons {e : REvent} {l : List REvent} (h : NoSync (e :: l)) :
    (e = REvent.fmt ∨ ∃ msg, e = REvent.echo msg) ∧ NoSync l :=
  ⟨h e (List.mem_cons_self e l), fun x hx => h x (List.mem_cons_of_mem e hx)⟩

theorem noSync_traces_head {pfx : List REvent} {bs : List AttemptBehavior}
    {e : REvent} {rest : List REvent} (hp : NoSync pfx)
    (hr : e :: rest = pfx ++ attemptTraces bs) (hne_fmt : e ≠ REvent.fmt)
    (hne_echo : ∀ msg, e ≠ REvent.echo msg) (hne_lock : e ≠ REvent.lock) :
    False := by
  cases pfx with
  | nil =>
    rw [List.nil_append] at hr
    exact hne_lock (attemptTraces_cons hr.symm).1
  | cons p pfx' =>
    rw [List.cons_append] at hr
    injection hr with h1 h2
    rcases (noSync_cons hp).1 with hpf | ⟨msg, hpe⟩
    · exact hne_fmt (h1.trans hpf)
    · exact hne_echo msg (h1.trans hpe)

theorem cshape_inv_fmt {o : Option Nat} {t : Nat} {rest : List REvent} {cu : Bool}
    (h : CShape o t (REvent.fmt :: rest) cu) :
    cu = false ∧ o ≠ some t ∧
      ∃ pfx bs, NoSync pfx ∧ rest = pfx ++ attemptTraces bs := by
  rcases h with ⟨pfx, bs, hp, ho, ha, hr⟩ | ⟨bs, _, _, hr⟩ | ⟨bs, _, _, hr⟩ |
    ⟨bs, _, _, hr⟩ | ⟨bs, _, _, hr⟩ | ⟨bs, _, _, hr⟩ | ⟨bs, _, _, hr⟩ |
    ⟨bs, _, _, hr⟩ | ⟨bs, _, _, hr⟩
  · cases pfx with
    | nil =>
      rw [List.nil_append] at hr
      exact absurd (attemptTraces_cons hr.symm).1 (by simp)
    | cons p pfx' =>
      rw [List.cons_append] at hr
      injection hr with h1 h2
      exact ⟨ha, ho, pfx', bs, (noSync_cons hp).2, h2⟩
  · exact absurd hr (by simp)
  · exact absurd hr (by simp)
  · exact absurd hr (by simp)
  · exact absurd hr (by simp)
  · exact absurd hr (by simp)
  · exact absurd hr (by simp)
  · exact absurd hr (by simp)
  · exact absurd hr (by simp)

theorem cshape_inv_echo {o : Option Nat} {t : Nat} {msg : String}
    {rest : List REvent} {cu : Bool} (h : CShape o t (REvent.echo msg :: rest) cu) :
    cu = false ∧ o ≠ some t ∧
      ∃ pfx bs, NoSync pfx ∧ rest = pfx ++ attemptTraces bs := by
  rcases h with ⟨pfx, bs, hp, ho, ha, hr⟩ | ⟨bs, _, _, hr⟩ | ⟨bs, _, _, hr⟩ |
    ⟨bs, _, _, hr⟩ | ⟨bs, _, _, hr⟩ | ⟨bs, _, _, hr⟩ | ⟨bs, _, _, hr⟩ |
    ⟨bs, _, _, hr⟩ | ⟨bs, _, _, hr⟩
  · cases pfx with
    | nil =>
      rw [List.nil_append] at hr
      exact absurd (attemptTraces_cons hr.symm).1 (by simp)
    | cons p pfx' =>
      rw [List.cons_append] at hr
      injection hr with h1 h2
      exact ⟨ha, ho, pfx', bs, (noSync_cons hp).2, h2⟩
  · exact absurd hr (by simp)
  · exact absurd hr (by simp)
  · exact absurd hr (by simp)
  · exact absurd hr (by simp)
  · exact absurd hr (by simp)
  · exact absurd hr (by simp)
  · exact absurd hr (by simp)
  · exact absurd hr (by simp)

theorem cshape_inv_lock {o : Option Nat} {t : Nat} {rest : List REvent} {cu : Bool}
    (h : CShape o t (REvent.lock :: rest) cu) :
    cu = false ∧ o ≠ some t ∧ ∃ bs : List AttemptBehavior,
      rest = REvent.unlock :: attemptTraces bs
    ∨ rest = REvent.spawn :: REvent.abandon :: REvent.unlock :: attemptTraces bs
    ∨ rest = REvent.spawn :: REvent.write :: REvent.abandon :: REvent.unlock ::
        attemptTraces bs
    ∨ rest = REvent.spawn :: REvent.write :: REvent.wait :: REvent.unlock ::
        attemptTraces bs := by
  rcases h with ⟨pfx, bs, hp, ho, ha, hr⟩ | ⟨bs, _, _, hr⟩ | ⟨bs, _, _, hr⟩ |
    ⟨bs, _, _, hr⟩ | ⟨bs, _, _, hr⟩ | ⟨bs, _, _, hr⟩ | ⟨bs, _, _, hr⟩ |
    ⟨bs, _, _, hr⟩ | ⟨bs, _, _, hr⟩
  · cases pfx with
    | nil =>
      rw [List.nil_append] at hr
      obtain ⟨_, bs', hrest⟩ := attemptTraces_cons hr.symm
      exact ⟨ha, ho, bs', hrest⟩
    | cons p pfx' =>
      rw [List.cons_append] at hr
      injection hr with h1 h2
      rcases (noSync_cons hp).1 with hpf | ⟨msg, hpe⟩
      · rw [hpf] at h1
        exact absurd h1 (by simp)
      · rw [hpe] at h1
        exact absurd h1 (by simp)
  · exact absurd hr (by simp)
  · exact absurd hr (by simp)
  · exact absurd hr (by simp)
  · exact absurd hr (by simp)
  · exact absurd hr (by simp)
  · exact absurd hr (by simp)
  · exact absurd hr (by simp)
  · exact absurd hr (by simp)

theorem cshape_inv_spawn {o : Option Nat} {t : Nat} {rest : List REvent} {cu : Bool}
    (h : CShape o t (REvent.spawn :: rest) cu) :
    cu = false ∧ o = some t ∧ ∃ bs : List AttemptBehavior,
      rest = REvent.abandon :: REvent.unlock :: attemptTraces bs
    ∨ rest = REvent.write :: REvent.abandon :: REvent.unlock :: attemptTraces bs
    ∨ rest = REvent.write :: REvent.wait :: REvent.unlock :: attemptTraces bs := by
  rcases h with ⟨pfx, bs, hp, ho, ha, hr⟩ | ⟨bs, ho, ha, hr⟩ | ⟨bs, ho, ha, hr⟩ |
    ⟨bs, ho, ha, hr⟩ | ⟨bs, _, _, hr⟩ | ⟨bs, _, _, hr⟩ | ⟨bs, _, _, hr⟩ |
    ⟨bs, _, _, hr⟩ | ⟨bs, _, _, hr⟩
  · exact absurd (noSync_traces_head hp hr (by simp) (fun msg => by simp) (by simp)) id
  · injection hr with h1 h2
    exact ⟨ha, ho, bs, Or.inl h2⟩
  · injection hr with h1 h2
    exact ⟨ha, ho, bs, Or.inr (Or.inl h2)⟩
  · injection hr with h1 h2
    exact ⟨ha, ho, bs, Or.inr (Or.inr h2)⟩
  · exact absurd hr (by simp)
  · exact absurd hr (by simp)
  · exact absurd hr (by simp)
  · exact absurd hr (by simp)
  · exact absurd hr (by simp)

theorem cshape_inv_write {o : Option Nat} {t : Nat} {rest : List REvent} {cu : Bool}
    (h : CShape o t (REvent.write :: rest) cu) :
    cu = true ∧ o = some t ∧ ∃ bs : List AttemptBehavior,
      rest = REvent.abandon :: REvent.unlock :: attemptTraces bs
    ∨ rest = REvent.wait :: REvent.unlock :: attemptTraces bs := by
  rcases h with ⟨pfx, bs, hp, ho, ha, hr⟩ | ⟨bs, _, _, hr⟩ | ⟨bs, _, _, hr⟩ |
    ⟨bs, _, _, hr⟩ | ⟨bs, _, _, hr⟩ | ⟨bs, ho, ha, hr⟩ | ⟨bs, ho, ha, hr⟩ |
    ⟨bs, _, _, hr⟩ | ⟨bs, _, _, hr⟩
  · exact absurd (noSync_traces_head hp hr (by simp) (fun msg => by simp) (by simp)) id
  · exact absurd hr (by simp)
  · exact absurd hr (by simp)
  · exact absurd hr (by simp)
  · exact absurd hr (by simp)
  · injection hr with h1 h2
    exact ⟨ha, ho, bs, Or.inl h2⟩
  · injection hr with h1 h2
    exact ⟨ha, ho, bs, Or.inr h2⟩
  · exact absurd hr (by simp)
  · exact absurd hr (by simp)

theorem cshape_inv_wait {o : Option Nat} {t : Nat} {rest : List REvent} {cu : Bool}
    (h : CShape o t (REvent.wait :: rest) cu) :
    cu = true ∧ o = some t ∧ ∃ bs : List AttemptBehavior,
      rest = REvent.unlock :: attemptTraces bs := by
  rcases h with ⟨pfx, bs, hp, ho, ha, hr⟩ | ⟨bs, _, _, hr⟩ | ⟨bs, _, _, hr⟩ |
    ⟨bs, _, _, hr⟩ | ⟨bs, _, _, hr⟩ | ⟨bs, _, _, hr⟩ | ⟨bs, _, _, hr⟩ |
    ⟨bs, ho, ha, hr⟩ | ⟨bs, _, _, hr⟩
  · exact absurd (noSync_traces_head hp hr (by simp) (fun msg => by simp) (by simp)) id
  · exact absurd hr (by simp)
  · exact absurd hr (by simp)
  · exact absurd hr (by simp)
  · exact absurd hr (by simp)
  · exact absurd hr (by simp)
  · exact absurd hr (by simp)
  · injection hr with h1 h2
    exact ⟨ha, ho, bs, h2⟩
  · exact absurd hr (by simp)

theorem cshape_inv_abandon {o : Option Nat} {t : Nat} {rest : List REvent}
    {cu : Bool} (h : CShape o t (REvent.abandon :: rest) cu) :
    cu = true ∧ o = some t ∧ ∃ bs : List AttemptBehavior,
      rest = REvent.unlock :: attemptTraces bs := by
  rcases h with ⟨pfx, bs, hp, ho, ha, hr⟩ | ⟨bs, _, _, hr⟩ | ⟨bs, _, _, hr⟩ |
    ⟨bs, _, _, hr⟩ | ⟨bs, ho, ha, hr⟩ | ⟨bs, _, _, hr⟩ | ⟨bs, _, _, hr⟩ |
    ⟨bs, _, _, hr⟩ | ⟨bs, _, _, hr⟩
  · exact absurd (noSync_traces_head hp hr (by simp) (fun msg => by simp) (by simp)) id
  · exact absurd hr (by simp)
  · exact absurd hr (by simp)
  · exact absurd hr (by simp)
  · injection hr with h1 h2
    exact ⟨ha, ho, bs, h2⟩
  · exact absurd hr (by simp)
  · exact absurd hr (by simp)
  · exact absurd hr (by simp)
  · exact absurd hr (by simp)

theorem cshape_inv_unlock {o : Option Nat} {t : Nat} {rest : List REvent}
    {cu : Bool} (h : CShape o t (REvent.unlock :: rest) cu) :
    cu = false ∧ o = some t ∧ ∃ bs : List AttemptBehavior,
      rest = attemptTraces bs := by
  rcases h with ⟨pfx, bs, hp, ho, ha, hr⟩ | ⟨bs, _, _, hr⟩ | ⟨bs, _, _, hr⟩ |
    ⟨bs, _, _, hr⟩ | ⟨bs, _, _, hr⟩ | ⟨bs, _, _, hr⟩ | ⟨bs, _, _, hr⟩ |
    ⟨bs, _, _, hr⟩ | ⟨bs, ho, ha, hr⟩
  · exact absurd (noSync_traces_head hp hr (by simp) (fun msg => by simp) (by simp)) id
  · exact absurd hr (by simp)
  · exact absurd hr (by simp)
  · exact absurd hr (by simp)
  · exact absurd hr (by simp)
  · exact absurd hr (by simp)
  · exact absurd hr (by simp)
  · exact absurd hr (by simp)
  · injection hr with h1 h2
    exact ⟨ha, ho, bs, h2⟩

theorem cshape_not_owner {o : Option Nat} {t : Nat} {r : List REvent} {cu : Bool}
    (h : CShape o t r cu) (ho : o ≠ some t) :
    cu = false ∧ ∃ pfx bs, NoSync pfx ∧ r = pfx ++ attemptTraces bs := by
  rcases h with ⟨pfx, bs, hp, _, ha, hr⟩ | ⟨bs, h1, _, _⟩ | ⟨bs, h1, _, _⟩ |
    ⟨bs, h1, _, _⟩ | ⟨bs, h1, _, _⟩ | ⟨bs, h1, _, _⟩ | ⟨bs, h1, _, _⟩ |
    ⟨bs, h1, _, _⟩ | ⟨bs, h1, _, _⟩
  · exact ⟨ha, pfx, bs, hp, hr⟩
  · exact absurd h1 ho
  · exact absurd h1 ho
  · exact absurd h1 ho
  · exact absurd h1 ho
  · exact absurd h1 ho
  · exact absurd h1 ho
  · exact absurd h1 ho
  · exact absurd h1 ho

theorem cshape_pre_any {o' : Option Nat} {t : Nat} {r : List REvent}
    (hpre : ∃ pfx bs, NoSync pfx ∧ r = pfx ++ attemptTraces bs)
    (ho' : o' ≠ some t) : CShape o' t r false := by
  obtain ⟨pfx, bs, hp, hr⟩ := hpre
  exact Or.inl ⟨pfx, bs, hp, ho', rfl, hr⟩

/-- A live in-progress child forces its thread to hold the gate. -/
theorem cshape_cur_owner {o : Option Nat} {t : Nat} {r : List REvent}
    (h : CShape o t r true) : o = some t := by
  rcases h with ⟨_, _, _, _, ha, _⟩ | ⟨_, _, ha, _⟩ | ⟨_, _, ha, _⟩ |
    ⟨_, _, ha, _⟩ | ⟨_, ho, _, _⟩ | ⟨_, ho, _, _⟩ | ⟨_, ho, _, _⟩ |
    ⟨_, ho, _, _⟩ | ⟨_, _, ha, _⟩
  · exact absurd ha (by simp)
  · exact absurd ha (by simp)
  · exact absurd ha (by simp)
  · exact absurd ha (by simp)
  · exact ho
  · exact ho
  · exact ho
  · exact ho
  · exact absurd ha (by simp)

/-- At most one in-progress child follows from the invariant: two would
both have to hold the single gate. -/
theorem minv_mutex {c : MState} (hinv : GateInv c) {t u : Nat}
    (ht : c.cur t = true) (hu : c.cur u = true) : t = u := by
  have h1 := hinv t
  rw [ht] at h1
  have h2 := hinv u
  rw [hu] at h2
  have o1 := cshape_cur_owner h1
  have o2 := cshape_cur_owner h2
  rw [o1] at o2
  exact Option.some.inj o2

/-- The whole event list of a `probe_result` call is a non-synchronizing
prefix (formatting, then the optional echo) followed by whole attempt
traces: all string formatting happens outside the critical sections. -/
theorem probeCallTrace_decomp (p : Probe) (code : String)
    (bs : List AttemptBehavior) :
    ∃ pfx, NoSync pfx ∧ probeCallTrace p code bs = pfx ++ attemptTraces bs := by
  refine ⟨REvent.fmt :: (p.debugEcho code).map REvent.echo, ?_, by
    simp [probeCallTrace]⟩
  intro e he
  rcases List.mem_cons.mp he with heq | hmem
  · exact Or.inl heq
  · obtain ⟨msg, _, hmsg⟩ := List.mem_map.mp hmem
    exact Or.inr ⟨msg, hmsg.symm⟩

theorem minv_mInit (ps : Nat → Probe) (codes : Nat → String)
    (bss : Nat → List AttemptBehavior) : GateInv (mInit ps codes bss) := by
  intro t
  obtain ⟨pfx, hp, hdec⟩ := probeCallTrace_decomp (ps t) (codes t) (bss t)
  exact Or.inl ⟨pfx, bss t, hp, by simp [mInit], rfl, hdec⟩

theorem updf_self {α : Type} (f : Nat → α) (t : Nat) (v : α) : updf f t v t = v := by
  simp [updf]

theorem updf_other {α : Type} (f : Nat → α) (t u : Nat) (v : α) (h : u ≠ t) :
    updf f t v u = f u := by
  simp [updf, h]

theorem minv_step {c c' : MState} (hinv : GateInv c) (hs : MStep c c') :
    GateInv c' := by
  cases hs with
  | fmt t rest hrem =>
    intro u
    show CShape c.owner u (updf c.rem t rest u) (c.cur u)
    have h := hinv t
    rw [hrem] at h
    obtain ⟨ha, ho, hpre⟩ := cshape_inv_fmt h
    by_cases hu : u = t
    · subst hu
      rw [updf_self, ha]
      exact cshape_pre_any hpre ho
    · rw [updf_other _ _ _ _ hu]
      exact hinv u
  | echo t msg rest hrem =>
    intro u
    show CShape c.owner u (updf c.rem t rest u) (c.cur u)
    have h := hinv t
    rw [hrem] at h
    obtain ⟨ha, ho, hpre⟩ := cshape_inv_echo h
    by_cases hu : u = t
    · subst hu
      rw [updf_self, ha]
      exact cshape_pre_any hpre ho
    · rw [updf_other _ _ _ _ hu]
      exact hinv u
  | lock t rest hrem howner =>
    intro u
    show CShape (some t) u (updf c.rem t rest u) (c.cur u)
    by_cases hu : u = t
    · subst hu
      have h := hinv u
      rw [hrem] at h
      obtain ⟨ha, _, bs, hrest⟩ := cshape_inv_lock h
      rw [updf_self, ha]
      rcases hrest with h4 | h4 | h4 | h4
      · rw [h4]
        exact Or.inr (Or.inr (Or.inr (Or.inr (Or.inr (Or.inr (Or.inr (Or.inr
          ⟨bs, rfl, rfl, rfl⟩)))))))
      · rw [h4]
        exact Or.inr (Or.inl ⟨bs, rfl, rfl, rfl⟩)
      · rw [h4]
        exact Or.inr (Or.inr (Or.inl ⟨bs, rfl, rfl, rfl⟩))
      · rw [h4]
        exact Or.inr (Or.inr (Or.inr (Or.inl ⟨bs, rfl, rfl, rfl⟩)))
    · rw [updf_other _ _ _ _ hu]
      have hne : c.owner ≠ some u := by rw [howner]; simp
      obtain ⟨ha, hpre⟩ := cshape_not_owner (hinv u) hne
      rw [ha]
      refine cshape_pre_any hpre ?_
      intro hcon
      exact hu (Option.some.inj hcon).symm
  | spawn t rest hrem =>
    intro u
    show CShape c.owner u (updf c.rem t rest u) (updf c.cur t true u)
    by_cases hu : u = t
    · subst hu
      have h := hinv u
      rw [hrem] at h
      obtain ⟨_, ho, bs, hrest⟩ := cshape_inv_spawn h
      rw [updf_self, updf_self, ho]
      rcases hrest with h3 | h3 | h3
      · rw [h3]
        exact Or.inr (Or.inr (Or.inr (Or.inr (Or.inl ⟨bs, rfl, rfl, rfl⟩))))
      · rw [h3]
        exact Or.inr (Or.inr (Or.inr (Or.inr (Or.inr (Or.inl ⟨bs, rfl, rfl, rfl⟩)))))
      · rw [h3]
        exact Or.inr (Or.inr (Or.inr (Or.inr (Or.inr (Or.inr (Or.inl
          ⟨bs, rfl, rfl, rfl⟩))))))
    · rw [updf_other _ _ _ _ hu, updf_other _ _ _ _ hu]
      exact hinv u
  | write t rest hrem =>
    intro u
    show CShape c.owner u (updf c.rem t rest u) (c.cur u)
    by_cases hu : u = t
    · subst hu
      have h := hinv u
      rw [hrem] at h
      obtain ⟨ha, ho, bs, hrest⟩ := cshape_inv_write h
      rw [updf_self, ho, ha]
      rcases hrest with h2 | h2
      · rw [h2]
        exact Or.inr (Or.inr (Or.inr (Or.inr (Or.inl ⟨bs, rfl, rfl, rfl⟩))))
      · rw [h2]
        exact Or.inr (Or.inr (Or.inr (Or.inr (Or.inr (Or.inr (Or.inr (Or.inl
          ⟨bs, rfl, rfl, rfl⟩)))))))
    · rw [updf_other _ _ _ _ hu]
      exact hinv u
  | wait t rest hrem =>
    intro u
    show CShape c.owner u (updf c.rem t rest u) (updf c.cur t false u)
    by_cases hu : u = t
    · subst hu
      have h := hinv u
      rw [hrem] at h
      obtain ⟨_, ho, bs, hrest⟩ := cshape_inv_wait h
      rw [updf_self, updf_self, ho, hrest]
      exact Or.inr (Or.inr (Or.inr (Or.inr (Or.inr (Or.inr (Or.inr (Or.inr
        ⟨bs, rfl, rfl, rfl⟩)))))))
    · rw [updf_other _ _ _ _ hu, updf_other _ _ _ _ hu]
      exact hinv u
  | abandon t rest hrem =>
    intro u
    show CShape c.owner u (updf c.rem t rest u) (updf c.cur t false u)
    by_cases hu : u = t
    · subst hu
      have h := hinv u
      rw [hrem] at h
      obtain ⟨_, ho, bs, hrest⟩ := cshape_inv_abandon h
      rw [updf_self, updf_self, ho, hrest]
      exact Or.inr (Or.inr (Or.inr (Or.inr (Or.inr (Or.inr (Or.inr (Or.inr
        ⟨bs, rfl, rfl, rfl⟩)))))))
    · rw [updf_other _ _ _ _ hu, updf_other _ _ _ _ hu]
      exact hinv u
  | unlock t rest hrem =>
    intro u
    show CShape none u (updf c.rem t rest u) (c.cur u)
    have ht := hinv t
    rw [hrem] at ht
    obtain ⟨hct, hot, bs, hrest⟩ := cshape_inv_unlock ht
    by_cases hu : u = t
    · subst hu
      rw [updf_self, hct, hrest]
      exact Or.inl ⟨[], bs, fun e he => absurd he (List.not_mem_nil e), by simp,
        rfl, by simp⟩
    · rw [updf_other _ _ _ _ hu]
      have hne : c.owner ≠ some u := by
        rw [hot]
        intro hcon
        exact hu (Option.some.inj hcon).symm
      obtain ⟨ha, hpre⟩ := cshape_not_owner (hinv u) hne
      rw [ha]
      exact cshape_pre_any hpre (by simp)
  | orphanExit n hor =>
    intro u
    show CShape c.owner u (c.rem u) (c.cur u)
    exact hinv u

theorem minv_reach {s c : MState} (hinit : GateInv s) (h : MReach s c) :
    GateInv c := by
  induction h with
  | refl => exact hinit
  | step hr hs ih => exact minv_step ih hs

/-- Claim C4 as amended: in every reachable state at most one thread has an
attempt in progress (a spawned, un-reaped, un-abandoned child), and that
thread holds the process-lifetime gate, acquired immediately before the
spawn; on full success the child is waited for before the guard is
released, but on a write or wait fault the attempt's early return abandons
the spawned child un-reaped before releasing the guard, so that child may
keep running and coexist with subprocesses of later attempts — "at most
one compiler subprocess at any instant" therefore holds only while no
abandoned child is still running.  Snippet formatting and the echo stay
outside the critical sections. -/
theorem spec_C4 (ps : Nat → Probe) (codes : Nat → String)
    (bss : Nat → List AttemptBehavior) (c : MState)
    (hreach : MReach (mInit ps codes bss) c) :
    (∀ t u, c.cur t = true → c.cur u = true → t = u)
  ∧ (∀ t, c.cur t = true → c.owner = some t)
  ∧ (∀ b : AttemptBehavior,
      (b.commOk = true →
        attemptTrace b = [REvent.lock, REvent.spawn, REvent.write, REvent.wait,
          REvent.unlock])
      ∧ (exOk b.spawn = false → attemptTrace b = [REvent.lock, REvent.unlock])
      ∧ (exOk b.spawn = true → exOk b.write = false →
        attemptTrace b = [REvent.lock, REvent.spawn, REvent.abandon, REvent.unlock])
      ∧ (exOk b.spawn = true → exOk b.write = true → exOk b.wait = false →
        attemptTrace b = [REvent.lock, REvent.spawn, REvent.write, REvent.abandon,
          REvent.unlock]))
  ∧ (∀ t, ∃ pfx, NoSync pfx ∧
      (mInit ps codes bss).rem t = pfx ++ attemptTraces (bss t)) := by
  have hinv := minv_reach (minv_mInit ps codes bss) hreach
  refine ⟨?_, ?_, ?_, ?_⟩
  · intro t u ht hu
    exact minv_mutex hinv ht hu
  · intro t ht
    have h := hinv t
    rw [ht] at h
    exact cshape_cur_owner h
  · intro b
    rcases b with ⟨s, w, x⟩
    cases s <;> cases w <;> cases x <;>
      simp [attemptTrace, AttemptBehavior.commOk, exOk]
  · intro t
    exact probeCallTrace_decomp (ps t) (codes t) (bss t)

/-- Concrete data for the C4 theorems: a default probe. -/
def wP : Probe := Probe.new none

/-- The concrete probed program of the C4 theorems. -/
def wCode : String := "fn main() \x7b\x7d"

/-- An attempt whose spawn succeeds but whose stdin write fails — for
example because the configured compiler program closed its stdin and kept
running: the `?` at lib.rs line 274 then returns early, dropping the guard
while the spawned child is still running, un-reaped. -/
def bWriteFault : AttemptBehavior := ⟨Except.ok (), Except.error 13, Except.ok 0⟩

/-- An attempt in which spawn, write and wait all succeed with exit 0. -/
def bOk : AttemptBehavior := ⟨Except.ok (), Except.ok (), Except.ok 0⟩

/-- Attempt behaviors of the counterexample run: thread 0's first attempt
spawns and then write-faults, and its retry succeeds; other threads are
idle. -/
def cxBss : Nat → List AttemptBehavior := fun t =>
  if t = 0 then [bWriteFault, bOk] else []

/-- Initial state of the counterexample run. -/
def cx0 : MState := mInit (fun _ => wP) (fun _ => wCode) cxBss

/-- Remaining events of thread 0 along the counterexample run. -/
def cxL1 : List REvent :=
  [REvent.lock, REvent.spawn, REvent.abandon, REvent.unlock, REvent.lock,
    REvent.spawn, REvent.write, REvent.wait, REvent.unlock]

/-- Remaining events of thread 0 after acquiring the gate. -/
def cxL2 : List REvent :=
  [REvent.spawn, REvent.abandon, REvent.unlock, REvent.lock, REvent.spawn,
    REvent.write, REvent.wait, REvent.unlock]

/-- Remaining events of thread 0 after spawning its first child. -/
def cxL3 : List REvent :=
  [REvent.abandon, REvent.unlock, REvent.lock, REvent.spawn, REvent.write,
    REvent.wait, REvent.unlock]

/-- Remaining events of thread 0 after the write fault abandons the child. -/
def cxL4 : List REvent :=
  [REvent.unlock, REvent.lock, REvent.spawn, REvent.write, REvent.wait,
    REvent.unlock]

/-- Remaining events of thread 0 after releasing the gate. -/
def cxL5 : List REvent :=
  [REvent.lock, REvent.spawn, REvent.write, REvent.wait, REvent.unlock]

/-- Remaining events of thread 0 after re-acquiring the gate. -/
def cxL6 : List REvent :=
  [REvent.spawn, REvent.write, REvent.wait, REvent.unlock]

/-- Remaining events of thread 0 after spawning its second child. -/
def cxL7 : List REvent :=
  [REvent.write, REvent.wait, REvent.unlock]

/-- Counterexample run, state 1: after thread 0's formatting step. -/
def cx1 : MState := { cx0 with rem := updf cx0.rem 0 cxL1 }

/-- State 2: thread 0 holds the gate. -/
def cx2 : MState := { cx1 with rem := updf cx1.rem 0 cxL2, owner := some 0 }

/-- State 3: thread 0 spawned its first child. -/
def cx3 : MState := { cx2 with rem := updf cx2.rem 0 cxL3, cur := updf cx2.cur 0 true }

/-- State 4: the stdin write faulted; the first child is abandoned,
still running. -/
def cx4 : MState :=
  { cx3 with rem := updf cx3.rem 0 cxL4, cur := updf cx3.cur 0 false, orphans := cx3.orphans + 1 }

/-- State 5: thread 0 released the gate; the abandoned child still runs. -/
def cx5 : MState := { cx4 with rem := updf cx4.rem 0 cxL5, owner := none }

/-- State 6: thread 0 re-acquired the gate for the retry. -/
def cx6 : MState := { cx5 with rem := updf cx5.rem 0 cxL6, owner := some 0 }

/-- State 7: thread 0 spawned its second child while the abandoned first
child is still running — two compiler subprocesses exist at this instant. -/
def cx7 : MState := { cx6 with rem := updf cx6.rem 0 cxL7, cur := updf cx6.cur 0 true }

/-- Claim C4, counterexample: the claim as stated — at most one compiler
subprocess exists at any instant — is false for the run in which thread 0's
first attempt spawns and then write-faults and its retry spawns again: the
state `cx7` is reachable and has the abandoned first child still running
(`orphans = 1`) alongside the freshly spawned second child (`cur 0`),
two subprocesses at one instant. -/
theorem spec_C4_counterexample :
    ¬ (∀ c : MState, MReach cx0 c →
        c.orphans + (if c.cur 0 = true then 1 else 0) ≤ 1) := by
  intro hclaim
  have h1 : MStep cx0 cx1 := MStep.fmt cx0 0 cxL1 rfl
  have h2 : MStep cx1 cx2 := MStep.lock cx1 0 cxL2 rfl rfl
  have h3 : MStep cx2 cx3 := MStep.spawn cx2 0 cxL3 rfl
  have h4 : MStep cx3 cx4 := MStep.abandon cx3 0 cxL4 rfl
  have h5 : MStep cx4 cx5 := MStep.unlock cx4 0 cxL5 rfl
  have h6 : MStep cx5 cx6 := MStep.lock cx5 0 cxL6 rfl rfl
  have h7 : MStep cx6 cx7 := MStep.spawn cx6 0 cxL7 rfl
  have hreach : MReach cx0 cx7 :=
    MReach.step (MReach.step (MReach.step (MReach.step (MReach.step (MReach.step
      (MReach.step MReach.refl h1) h2) h3) h4) h5) h6) h7
  have h := hclaim cx7 hreach
  have ho : cx7.orphans = 1 := rfl
  have hc : cx7.cur 0 = true := rfl
  rw [ho, hc, if_pos rfl] at h
  omega

/-- Attempt behaviors of the witness run: every thread runs one fully
successful attempt. -/
def mBss : Nat → List AttemptBehavior := fun _ => [bOk]

/-- Initial state of the witness run. -/
def mS0 : MState := mInit (fun _ => wP) (fun _ => wCode) mBss

/-- Remaining events of thread 0 after its formatting step. -/
def mL1 : List REvent :=
  [REvent.lock, REvent.spawn, REvent.write, REvent.wait, REvent.unlock]

/-- Remaining events of thread 0 after acquiring the gate. -/
def mL2 : List REvent :=
  [REvent.spawn, REvent.write, REvent.wait, REvent.unlock]

/-- Remaining events of thread 0 after spawning its child. -/
def mL3 : List REvent :=
  [REvent.write, REvent.wait, REvent.unlock]

/-- Witness run, state 1: after thread 0's formatting step. -/
def mS1 : MState := { mS0 with rem := updf mS0.rem 0 mL1 }

/-- State 2: thread 0 holds the gate. -/
def mS2 : MState := { mS1 with rem := updf mS1.rem 0 mL2, owner := some 0 }

/-- State 3: thread 0 spawned its child, which is in progress. -/
def mS3 : MState := { mS2 with rem := updf mS2.rem 0 mL3, cur := updf mS2.cur 0 true }

theorem spec_C4_witness :
    (∀ t u, mS3.cur t = true → mS3.cur u = true → t = u)
  ∧ (∀ t, mS3.cur t = true → mS3.owner = some t)
  ∧ (∀ b : AttemptBehavior,
      (b.commOk = true →
        attemptTrace b = [REvent.lock, REvent.spawn, REvent.write, REvent.wait,
          REvent.unlock])
      ∧ (exOk b.spawn = false → attemptTrace b = [REvent.lock, REvent.unlock])
      ∧ (exOk b.spawn = true → exOk b.write = false →
        attemptTrace b = [REvent.lock, REvent.spawn, REvent.abandon, REvent.unlock])
      ∧ (exOk b.spawn = true → exOk b.write = true → exOk b.wait = false →
        attemptTrace b = [REvent.lock, REvent.spawn, REvent.write, REvent.abandon,
          REvent.unlock]))
  ∧ (∀ t, ∃ pfx, NoSync pfx ∧
      (mInit (fun _ => wP) (fun _ => wCode) mBss).rem t =
        pfx ++ attemptTraces (mBss t)) := by
  refine spec_C4 (fun _ => wP) (fun _ => wCode) mBss mS3 ?_
  have h1 : MStep mS0 mS1 := MStep.fmt mS0 0 mL1 rfl
  have h2 : MStep mS1 mS2 := MStep.lock mS1 0 mL2 rfl rfl
  have h3 : MStep mS2 mS3 := MStep.spawn mS2 0 mL3 rfl
  exact MReach.step (MReach.step (MReach.step MReach.refl h1) h2) h3

/-! ### Concrete sanity checks of the retry semantics. -/

/-- Oracle whose first two attempts fail to spawn and whose third succeeds
with exit code 0. -/
def envTwoFaults : Nat → AttemptBehavior := fun i =>
  if i < 2 then ⟨Except.error 7, Except.ok (), Except.ok 0⟩
  else ⟨Except.ok (), Except.ok (), Except.ok 0⟩

/-- Oracle whose every attempt fails to spawn. -/
def envAllFaults : Nat → AttemptBehavior := fun _ =>
  ⟨Except.error 9, Except.ok (), Except.ok 0⟩

/-- Oracle whose first attempt communicates but the compiler rejects. -/
def envReject : Nat → AttemptBehavior := fun _ =>
  ⟨Except.ok (), Except.ok (), Except.ok 1⟩

theorem probe_result_two_faults_then_ok :
    (Probe.new none).probe_result "fn main() \x7b\x7d" envTwoFaults = Except.ok true :=
  rfl

theorem probe_result_all_faults :
    (Probe.new none).probe_result "fn main() \x7b\x7d" envAllFaults = Except.error 9 :=
  rfl

theorem probe_all_faults_panics :
    (Probe.new none).probe "fn main() \x7b\x7d" envAllFaults = none :=
  rfl

theorem probe_result_reject_no_retry :
    (Probe.new none).probe_result "fn main(x: u8) \x7b\x7d" envReject = Except.ok false
  ∧ attemptsMade (Probe.new none) envReject = 1 :=
  ⟨rfl, rfl⟩
